import Mathlib

/-!
Shallow embedding of the Task Analytics & Temporal Aggregation logic of the
study-tracker app (src/pages/StudentDashboard.tsx, src/components/ContributionGraph.tsx,
and the admin dashboard in src/unnamed/part_002).

Time model: JavaScript epoch-millisecond instants are `Int`.  A `Date` value that may
be invalid (`NaN` / `undefined` timestamp fields) is `Option Int`, `none` standing for
an invalid instant.  The local calendar day of an instant `t` under a fixed UTC offset
`off` (milliseconds added to UTC to obtain local time) is `(t + off).fdiv msPerDay`,
here written with Euclidean division `/`, which coincides with floor division for the
positive divisor 86400000.  `date-fns` operations used by the code (`startOfDay`,
`isPast`, `isToday`, `isSameDay`, and the `yyyy-MM-dd` day key of `format`) are all
functions of this local day index, so the day key of the contribution map is modelled
by the local day index itself (the `yyyy-MM-dd` string is in bijection with it).
-/

namespace StudyTracker

def msPerDay : Int := 86400000

/-- Local calendar-day index of an epoch-millisecond instant under UTC offset `off`. -/
def localDay (off t : Int) : Int := (t + off) / 86400000

/-- `startOfDay` of date-fns on a valid instant: local midnight of the instant's day,
as an epoch-millisecond instant. -/
def startOfDayMs (off t : Int) : Int := localDay off t * 86400000 - off

/-- `startOfDay` lifted to possibly-invalid dates (`startOfDay(Invalid Date)` is invalid). -/
def jsStartOfDay (off : Int) : Option Int → Option Int
  | none => none
  | some t => some (startOfDayMs off t)

/-- date-fns `isPast(d)`: `d.getTime() < Date.now()`; any comparison with `NaN` is false. -/
def jsIsPast (now : Int) : Option Int → Bool
  | none => false
  | some t => t < now

/-- date-fns `isToday(d)`: `d` falls on the same local calendar day as `now`;
false on an invalid date. -/
def jsIsToday (off now : Int) : Option Int → Bool
  | none => false
  | some t => localDay off t == localDay off now

/-- JavaScript truthiness of a `number | undefined` field: `undefined`, `NaN` and `0`
are falsy.  (`none` models `undefined`/`NaN`.) -/
def jsTruthyNum : Option Int → Bool
  | none => false
  | some v => v != 0

/-- Validity check `!isNaN(new Date(x).getTime())`. -/
def jsIsValid : Option Int → Bool
  | none => false
  | some _ => true

inductive Priority
  | high
  | medium
  | low
deriving DecidableEq, Repr

/-- `Task` from src/types.ts.  `dueDate` and `completedAt` are possibly-invalid
instants; the optional `overdueNotificationSent` flag is a `Bool` (an absent field is
falsy, exactly how every read of the flag treats it). -/
structure Task where
  id : String
  userId : String
  title : String
  dueDate : Option Int
  priority : Option Priority
  completed : Bool
  completedAt : Option Int
  createdAt : Int
  overdueNotificationSent : Bool
deriving DecidableEq, Repr

/-- `AppNotification` from src/types.ts (the fields written by the dashboards). -/
structure AppNotification where
  type : String
  message : String
  createdAt : Int
  read : Bool
  studentId : String
deriving DecidableEq, Repr

/-- src/pages/StudentDashboard.tsx line 74:
`!task.completed && isPast(startOfDay(task.dueDate)) && !isToday(task.dueDate)`. -/
def isOverdueCheck (off now : Int) (t : Task) : Bool :=
  !t.completed && jsIsPast now (jsStartOfDay off t.dueDate) && !jsIsToday off now t.dueDate

/-- Status assigned by the temporal classifier of the spec, realized in the code by the
`completed` flag, the `isToday(dueDate)` check (StudentDashboard.tsx line 532) and the
overdue check (line 74/527), tried in that order. -/
inductive TaskStatus
  | Completed
  | DueToday
  | Overdue
  | Upcoming
deriving DecidableEq, Repr

/-- The temporal classifier: the code's checks in their guard order. -/
def classify (off : Int) (t : Task) (now : Int) : TaskStatus :=
  if t.completed then .Completed
  else if jsIsToday off now t.dueDate then .DueToday
  else if jsIsPast now (jsStartOfDay off t.dueDate) then .Overdue
  else .Upcoming

/-- The warning notification written by the overdue scan
(StudentDashboard.tsx lines 79-85). -/
def mkOverdueNotification (displayName uid : String) (now : Int) (t : Task) : AppNotification :=
  { type := "warning"
    message := displayName ++ " has an overdue task: \x27" ++ t.title ++ "\x27"
    createdAt := now
    read := false
    studentId := uid }

/-- The overdue scan run on every snapshot (StudentDashboard.tsx lines 72-95): for each
task that passes `isOverdueCheck` and whose latch is unset, emit one warning
notification and set `overdueNotificationSent`.  Returns the emitted notifications and
the task list with the latches updated. -/
def overdueScan (off now : Int) (displayName uid : String) :
    List Task → List AppNotification × List Task
  | [] => ([], [])
  | t :: ts =>
    let rest := overdueScan off now displayName uid ts
    if isOverdueCheck off now t && !t.overdueNotificationSent then
      (mkOverdueNotification displayName uid now t :: rest.1,
       { t with overdueNotificationSent := true } :: rest.2)
    else
      (rest.1, t :: rest.2)

/-- `toggleTask` (StudentDashboard.tsx lines 143-166): flips `completed` and sets
`completedAt` to now or `null`; never touches the notification latch. -/
def toggleTask (now : Int) (t : Task) : Task :=
  let newStatus := !t.completed
  { t with completed := newStatus, completedAt := if newStatus then some now else none }

/-- `handleUpdateTask` (StudentDashboard.tsx lines 193-207), success path: the edited
due date `d` is a valid parsed instant; `timestamp = startOfDay(d)`, and
`isNowFuture = !isPast(timestamp) || isToday(timestamp)` decides whether the
notification latch is reset. -/
def handleUpdateTask (off now : Int) (newTitle : String) (d : Int) (prio : Priority)
    (t : Task) : Task :=
  let timestamp := startOfDayMs off d
  let isNowFuture := !jsIsPast now (some timestamp) || jsIsToday off now (some timestamp)
  { t with
    title := newTitle
    dueDate := some timestamp
    priority := some prio
    overdueNotificationSent := if isNowFuture then false else t.overdueNotificationSent }

/-- `map.set(dateKey, (map.get(dateKey) || 0) + 1)` on an association list keyed by
local day index (ContributionGraph.tsx line 40). -/
def bumpDay (k : Int) : List (Int × Nat) → List (Int × Nat)
  | [] => [(k, 1)]
  | (k', n) :: rest => if k = k' then (k', n + 1) :: rest else (k', n) :: bumpDay k rest

/-- One step of the `contributions` pass (ContributionGraph.tsx lines 34-43):
`if (task.completed && task.completedAt) { const d = new Date(task.completedAt);
if (!isNaN(d.getTime())) { bump } }`. -/
def contribStep (off : Int) (m : List (Int × Nat)) (t : Task) : List (Int × Nat) :=
  match t.completedAt with
  | none => m
  | some v => if t.completed && v != 0 then bumpDay (localDay off v) m else m

/-- The single-pass day-key map of ContributionGraph.tsx lines 32-45. -/
def contributions (off : Int) (tasks : List Task) : List (Int × Nat) :=
  tasks.foldl (contribStep off) []

/-- `contributions.get(dateKey) || 0` (ContributionGraph.tsx line 114). -/
def dayLookup (k : Int) : List (Int × Nat) → Nat
  | [] => 0
  | (k', n) :: rest => if k = k' then n else dayLookup k rest

/-- `getColor` (ContributionGraph.tsx lines 48-54). -/
def getColor (count : Nat) : String :=
  if count == 0 then "bg-slate-100 dark:bg-slate-700/40"
  else if count == 1 then "bg-green-200 dark:bg-green-900/80"
  else if count <= 3 then "bg-green-400 dark:bg-green-600"
  else if count <= 5 then "bg-green-500 dark:bg-green-500"
  else "bg-green-600 dark:bg-green-400"

/-- The five color classes of `getColor` listed by level, level 0 first. -/
def levelPalette : List String :=
  ["bg-slate-100 dark:bg-slate-700/40",
   "bg-green-200 dark:bg-green-900/80",
   "bg-green-400 dark:bg-green-600",
   "bg-green-500 dark:bg-green-500",
   "bg-green-600 dark:bg-green-400"]

/-- Modelled from the spec: the 5-level consistency bucket of a day's completion
count, `0 → 0; 1 → 1; 2-3 → 2; 4-5 → 3; ≥6 → 4` (spec section 4.3). -/
def colorLevelSpec (c : Nat) : Nat :=
  if c = 0 then 0
  else if c = 1 then 1
  else if 2 ≤ c ∧ c ≤ 3 then 2
  else if 4 ≤ c ∧ c ≤ 5 then 3
  else 4

/-- Per-day completion count of the performance line chart
(src/unnamed/part_002 lines 1113-1118): filter-and-count re-scan for one day. -/
def naiveDayCount (off : Int) (tasks : List Task) (day : Int) : Nat :=
  (tasks.filter (fun t =>
    t.completed && jsTruthyNum t.completedAt &&
      (match t.completedAt with
       | none => false
       | some v => localDay off v == day))).length

/-- Overdue test of the admin dashboard (src/unnamed/part_002, CSV export lines
1506-1509 and `systemOverdueTasks` lines 1616-1619):
`!isNaN(d.getTime()) && !t.completed && isPast(startOfDay(d)) && !isToday(d)`. -/
def adminOverdue (off now : Int) (t : Task) : Bool :=
  jsIsValid t.dueDate && !t.completed &&
    jsIsPast now (jsStartOfDay off t.dueDate) && !jsIsToday off now t.dueDate

/-- `Math.round(100 * completed / total)` for `total > 0`: round-half-up of the exact
rational, computed with natural division. -/
def jsRound100 (completed total : Nat) : Nat :=
  (200 * completed + total) / (2 * total)

/-- Modelled from the spec (section 4.3): completion rate
`round(100 * completedCount / totalCount)`, defined as 0 when `totalCount = 0`. -/
def rateSpec (completed total : Nat) : Nat :=
  if total = 0 then 0 else (round ((100 * completed : ℚ) / total)).toNat

/-- Per-student / system-wide completion rate
(StudentDashboard.tsx lines 234-236, src/unnamed/part_002 line 1620):
`total > 0 ? Math.round((completed / total) * 100) : 0`. -/
def completionRate (tasks : List Task) : Nat :=
  let total := tasks.length
  let completed := (tasks.filter (fun t => t.completed)).length
  if total > 0 then jsRound100 completed total else 0

/-- The numeric cells of one CSV row and of the rollups. -/
structure RowStats where
  total : Nat
  completed : Nat
  pending : Nat
  overdue : Nat
  rate : Nat
deriving DecidableEq, Repr

/-- Row computation of `handleExportCSV` (src/unnamed/part_002 lines 1501-1517) for
one student `uid` over the global task list. -/
def csvRowStats (off now : Int) (uid : String) (allTasks : List Task) : RowStats :=
  let sTasks := allTasks.filter (fun t => t.userId == uid)
  let total := sTasks.length
  let completed := (sTasks.filter (fun t => t.completed)).length
  let overdue := (sTasks.filter (adminOverdue off now)).length
  let pending := total - completed
  let rate := if total != 0 then jsRound100 completed total else 0
  ⟨total, completed, pending, overdue, rate⟩

/-- System-wide counters (src/unnamed/part_002 lines 1613-1620); the admin UI computes
no explicit system pending count, so `pending` here is the derived
`totalTasks - completedTasks` of the rollup shape of spec section 4.4. -/
def systemStats (off now : Int) (allTasks : List Task) : RowStats :=
  let total := allTasks.length
  let completed := (allTasks.filter (fun t => t.completed)).length
  let overdue := (allTasks.filter (adminOverdue off now)).length
  let rate := if total != 0 then jsRound100 completed total else 0
  ⟨total, completed, total - completed, overdue, rate⟩

/-- `b.completedAt || 0` coercion used by the history comparator. -/
def cAt0 (t : Task) : Int :=
  match t.completedAt with
  | none => 0
  | some v => v

/-- `a.dueDate` read as a number by the comparator's subtraction; an invalid due date
is read as 0 (in JS the subtraction would be `NaN`, which the sort treats as no
preference; 0 models that neutrally). -/
def dueNum (t : Task) : Int :=
  match t.dueDate with
  | none => 0
  | some v => v

/-- The history comparator of `selectedStudentTasks`
(src/unnamed/part_002 lines 1588-1602). -/
def historyCmp (a b : Task) : Int :=
  if a.completed && b.completed then cAt0 b - cAt0 a
  else if a.completed != b.completed then (if a.completed then 1 else -1)
  else dueNum a - dueNum b

/-- `selectedStudentTasks` (src/unnamed/part_002 lines 1585-1603): the selected
student's tasks sorted by `historyCmp`. -/
def selectedStudentTasks (uid : String) (allTasks : List Task) : List Task :=
  (allTasks.filter (fun t => t.userId == uid)).mergeSort (fun a b => historyCmp a b ≤ 0)

/-- The order relation the history view is claimed to realize: an incomplete task
precedes a complete one; two incomplete tasks are in ascending due-date order; two
complete tasks are in descending completion-time order. -/
def historyOrdered (a b : Task) : Prop :=
  match a.completed, b.completed with
  | false, false => dueNum a ≤ dueNum b
  | false, true => True
  | true, false => False
  | true, true => cAt0 b ≤ cAt0 a

/-! Concrete data used to witness the theorems: a fixed evaluation instant on local
day 100 (offset 0) and a handful of tasks around it. -/

def wNow : Int := 100 * 86400000 + 3600000

def wTask : Task :=
  { id := "a"
    userId := "s1"
    title := "math chapter 4"
    dueDate := some (99 * 86400000 + 500)
    priority := some .high
    completed := false
    completedAt := none
    createdAt := 10
    overdueNotificationSent := false }

def wTaskToday : Task :=
  { wTask with id := "b", dueDate := some (100 * 86400000 + 7200000) }

def wTaskDone : Task :=
  { wTask with id := "c", completed := true, completedAt := some wNow }

def wTaskSent : Task :=
  { wTask with id := "d", overdueNotificationSent := true }

def wTaskBadDue : Task :=
  { wTask with id := "e", dueDate := none }

def wTaskBadDone : Task :=
  { wTask with id := "f", completed := true, completedAt := none }

/-- One of the ten tasks of the CSV round-trip scenario. -/
def sampleTask (n : Nat) (due : Int) (comp : Bool) (cAt : Option Int) : Task :=
  { id := toString n
    userId := "s1"
    title := "task " ++ toString n
    dueDate := some due
    priority := some .medium
    completed := comp
    completedAt := cAt
    createdAt := Int.ofNat n
    overdueNotificationSent := false }

/-- Ten tasks of one student relative to `wNow` (local day 100): seven completed, one
overdue (due day 99), two pending and not overdue (due days 100 and 101). -/
def sampleTasks : List Task :=
  [sampleTask 1 (95 * 86400000) true (some (95 * 86400000 + 100)),
   sampleTask 2 (95 * 86400000) true (some (95 * 86400000 + 200)),
   sampleTask 3 (96 * 86400000) true (some (96 * 86400000 + 100)),
   sampleTask 4 (97 * 86400000) true (some (97 * 86400000 + 100)),
   sampleTask 5 (98 * 86400000) true (some (98 * 86400000 + 100)),
   sampleTask 6 (99 * 86400000) true (some (99 * 86400000 + 100)),
   sampleTask 7 (100 * 86400000) true (some (100 * 86400000 + 100)),
   sampleTask 8 (99 * 86400000) false none,
   sampleTask 9 (100 * 86400000) false none,
   sampleTask 10 (101 * 86400000) false none]

/-- The overdue test of the code (`isPast(startOfDay(d)) && !isToday(d)` on a valid
instant) holds exactly when the due date's local calendar day is strictly before
`now`'s local calendar day. -/
theorem overdue_day_iff (off now d : Int) :
    (jsIsPast now (jsStartOfDay off (some d)) = true ∧ jsIsToday off now (some d) = false) ↔
      localDay off d < localDay off now := by
  simp only [jsIsPast, jsStartOfDay, jsIsToday, startOfDayMs, localDay,
    decide_eq_true_eq, beq_eq_false_iff_ne, ne_eq]
  omega

/-- `isToday` on a valid instant is exactly equality of local calendar days. -/
theorem isToday_iff (off now d : Int) :
    jsIsToday off now (some d) = true ↔ localDay off d = localDay off now := by
  simp [jsIsToday]

/-- C1: temporal classification.  A completed task is classified `Completed` whatever
its due date; an uncompleted task whose (valid) due date lies on a local calendar day
strictly before `now`'s day is classified `Overdue`; an uncompleted task due on the
same calendar day as `now` is classified `DueToday` regardless of the time of day. -/
theorem classify_temporal (off : Int) (t : Task) (now d : Int) :
    (t.completed = true → classify off t now = .Completed) ∧
    (t.completed = false → t.dueDate = some d →
      ((localDay off d < localDay off now → classify off t now = .Overdue) ∧
       (localDay off d = localDay off now → classify off t now = .DueToday))) := by
  refine ⟨fun h => by simp [classify, h], fun hc hd => ⟨fun hlt => ?_, fun heq => ?_⟩⟩
  · have hov := (overdue_day_iff off now d).2 hlt
    simp [classify, hc, hd, hov.1, hov.2]
  · have ht := (isToday_iff off now d).2 heq
    simp [classify, hc, hd, ht]

/-- Witness for C1 at concrete tasks on local day 100. -/
theorem classify_temporal_witness :
    classify 0 wTask wNow = .Overdue ∧ classify 0 wTaskToday wNow = .DueToday ∧
      classify 0 wTaskDone wNow = .Completed :=
  ⟨((classify_temporal 0 wTask wNow (99 * 86400000 + 500)).2 rfl rfl).1 (by decide),
   ((classify_temporal 0 wTaskToday wNow (100 * 86400000 + 7200000)).2 rfl rfl).2 (by decide),
   (classify_temporal 0 wTaskDone wNow 0).1 rfl⟩

/-- One scan step leaves every field but the latch alone, and the new latch value is
the old one or-ed with the overdue check. -/
theorem scanStep_eq (off now : Int) (u : Task) :
    (if isOverdueCheck off now u && !u.overdueNotificationSent then
       { u with overdueNotificationSent := true } else u) =
    { u with overdueNotificationSent :=
        u.overdueNotificationSent || isOverdueCheck off now u } := by
  rcases u with ⟨i, us, ti, dd, p, c, ca, cr, s⟩
  cases s <;> cases hc : isOverdueCheck off now ⟨i, us, ti, dd, p, c, ca, cr, _⟩ <;>
    simp_all

/-- The notifications of one scan pass: one warning per task that is overdue with the
latch unset, in task order. -/
theorem overdueScan_fst (off now : Int) (name uid : String) (tasks : List Task) :
    (overdueScan off now name uid tasks).1 =
      (tasks.filter (fun t => isOverdueCheck off now t && !t.overdueNotificationSent)).map
        (mkOverdueNotification name uid now) := by
  induction tasks with
  | nil => rfl
  | cons t ts ih =>
    simp only [overdueScan, List.filter_cons]
    cases hc : (isOverdueCheck off now t && !t.overdueNotificationSent) <;> simp [hc, ih]

/-- The task list after one scan pass: each latch becomes its old value or-ed with the
overdue check; nothing else changes. -/
theorem overdueScan_snd (off now : Int) (name uid : String) (tasks : List Task) :
    (overdueScan off now name uid tasks).2 =
      tasks.map (fun u =>
        { u with overdueNotificationSent :=
            u.overdueNotificationSent || isOverdueCheck off now u }) := by
  induction tasks with
  | nil => rfl
  | cons t ts ih =>
    have hstep := scanStep_eq off now t
    cases hc : (isOverdueCheck off now t && !t.overdueNotificationSent) with
    | false =>
      rw [hc, if_neg (by simp)] at hstep
      simp only [overdueScan, hc, Bool.false_eq_true, if_false, List.map_cons,
        List.cons.injEq]
      exact ⟨hstep, ih⟩
    | true =>
      rw [hc, if_pos rfl] at hstep
      simp only [overdueScan, hc, if_true, List.map_cons, List.cons.injEq]
      exact ⟨hstep, ih⟩

/-- After a scan pass, no task still satisfies the emit condition. -/
theorem overdueScan_cond_false (off now : Int) (name uid : String) (tasks : List Task) :
    ∀ u ∈ (overdueScan off now name uid tasks).2,
      (isOverdueCheck off now u && !u.overdueNotificationSent) = false := by
  rw [overdueScan_snd]
  intro u hu
  rw [List.mem_map] at hu
  obtain ⟨v, _, rfl⟩ := hu
  have hcheck : isOverdueCheck off now
      { v with overdueNotificationSent :=
          v.overdueNotificationSent || isOverdueCheck off now v } =
      isOverdueCheck off now v := rfl
  rw [hcheck]
  cases hv : isOverdueCheck off now v <;> simp [hv]

/-- The scan's emit test agrees with the classifier: it fires exactly on tasks
classified `Overdue`. -/
theorem isOverdueCheck_iff_classify (off now : Int) (t : Task) :
    isOverdueCheck off now t = true ↔ classify off t now = .Overdue := by
  unfold isOverdueCheck classify
  cases hc : t.completed <;> cases ht : jsIsToday off now t.dueDate <;>
    cases hp : jsIsPast now (jsStartOfDay off t.dueDate) <;> simp_all

/-- C2: overdue-notification idempotence.  One scan pass emits exactly one warning per
task that is classified `Overdue` (the scan's test is exactly that classification) with
`overdueNotificationSent` unset, in task order, and sets the latch; a second pass over
the updated list emits nothing; a task whose latch is already set never yields a
notification. -/
theorem overdue_scan_idempotent (off now : Int) (name uid : String) (tasks : List Task) :
    ((overdueScan off now name uid tasks).1 =
       (tasks.filter (fun t => isOverdueCheck off now t && !t.overdueNotificationSent)).map
         (mkOverdueNotification name uid now)) ∧
    (∀ t : Task, isOverdueCheck off now t = true ↔ classify off t now = .Overdue) ∧
    ((overdueScan off now name uid (overdueScan off now name uid tasks).2).1 = []) ∧
    (∀ t : Task, t.overdueNotificationSent = true →
      (overdueScan off now name uid [t]).1 = []) := by
  refine ⟨overdueScan_fst off now name uid tasks, isOverdueCheck_iff_classify off now,
    ?_, fun t h => by simp [overdueScan, h]⟩
  rw [overdueScan_fst]
  have hnil : ((overdueScan off now name uid tasks).2).filter
      (fun t => isOverdueCheck off now t && !t.overdueNotificationSent) = [] := by
    rw [List.filter_eq_nil_iff]
    intro u hu
    simp [overdueScan_cond_false off now name uid tasks u hu]
  rw [hnil, List.map_nil]

/-- Witness for C2: a task with the latch already set produces no notification. -/
theorem overdue_scan_idempotent_witness :
    (overdueScan 0 wNow "Ms A" "s1" [wTaskSent]).1 = [] :=
  (overdue_scan_idempotent 0 wNow "Ms A" "s1" [wTaskSent]).2.2.2 wTaskSent rfl

/-- The `isNowFuture` test of `handleUpdateTask`
(`!isPast(timestamp) || isToday(timestamp)` with `timestamp = startOfDay(d)`) holds
exactly when the edited due day is today or later. -/
theorem isNowFuture_iff (off now d : Int) :
    (!jsIsPast now (some (startOfDayMs off d)) ||
       jsIsToday off now (some (startOfDayMs off d))) = true ↔
      localDay off now ≤ localDay off d := by
  simp only [jsIsPast, jsIsToday, Bool.or_eq_true, Bool.not_eq_true',
    decide_eq_false_iff_not, not_lt, beq_iff_eq, startOfDayMs, localDay]
  omega

/-- C3: notification-latch state machine.  An edit whose new due day is today or later
clears the latch; an edit whose new due day is still past preserves it; toggling
completion never touches it; and the overdue scan only or-es the overdue check into
the latch (so it can set it, never clear it), leaving all other fields unchanged. -/
theorem latch_state_machine (off now : Int) (newTitle : String) (d : Int) (p : Priority)
    (t : Task) (name uid : String) (tasks : List Task) :
    (localDay off now ≤ localDay off d →
      (handleUpdateTask off now newTitle d p t).overdueNotificationSent = false) ∧
    (localDay off d < localDay off now →
      (handleUpdateTask off now newTitle d p t).overdueNotificationSent =
        t.overdueNotificationSent) ∧
    ((toggleTask now t).overdueNotificationSent = t.overdueNotificationSent) ∧
    ((overdueScan off now name uid tasks).2 = tasks.map (fun u =>
      { u with overdueNotificationSent :=
          u.overdueNotificationSent || isOverdueCheck off now u })) := by
  refine ⟨fun h => ?_, fun h => ?_, rfl, overdueScan_snd off now name uid tasks⟩
  · have hf := (isNowFuture_iff off now d).2 h
    simp [handleUpdateTask, hf]
  · have hf : (!jsIsPast now (some (startOfDayMs off d)) ||
        jsIsToday off now (some (startOfDayMs off d))) = false := by
      rw [Bool.eq_false_iff]
      intro hcon
      exact absurd ((isNowFuture_iff off now d).1 hcon) (by omega)
    simp [handleUpdateTask, hf]

/-- Witness for C3: editing the latched task `wTaskSent` to a future day clears the
latch, editing it to a still-past day keeps the latch set. -/
theorem latch_state_machine_witness :
    (handleUpdateTask 0 wNow "t" (101 * 86400000) .low wTaskSent).overdueNotificationSent
        = false ∧
    (handleUpdateTask 0 wNow "t" (98 * 86400000) .low wTaskSent).overdueNotificationSent
        = true :=
  ⟨(latch_state_machine 0 wNow "t" (101 * 86400000) .low wTaskSent "n" "u" []).1
      (by decide),
   ((latch_state_machine 0 wNow "t" (98 * 86400000) .low wTaskSent "n" "u" []).2.1
      (by decide)).trans rfl⟩

/-- C4: malformed timestamps are fail-safe.  (Aggregation is embedded by total
functions, so no input can make it throw.)  A task with an invalid `completedAt`
contributes to no day bucket wherever it sits in the list; a task with an invalid
`dueDate` that is not completed is classified `Upcoming`, and the admin overdue test
rejects it outright. -/
theorem malformed_failsafe (off now : Int) (t : Task) (pre post : List Task) (k : Int) :
    (t.completedAt = none →
      dayLookup k (contributions off (pre ++ t :: post)) =
        dayLookup k (contributions off (pre ++ post))) ∧
    (t.dueDate = none → t.completed = false → classify off t now = .Upcoming) ∧
    (t.dueDate = none → adminOverdue off now t = false) := by
  refine ⟨fun h => ?_, fun h hc => ?_, fun h => ?_⟩
  · have hid : ∀ m : List (Int × Nat), contribStep off m t = m := by
      intro m; simp [contribStep, h]
    simp [contributions, List.foldl_append, hid]
  · simp [classify, h, hc, jsIsToday, jsIsPast, jsStartOfDay]
  · simp [adminOverdue, h, jsIsValid]

/-- Witness for C4: the invalid-`completedAt` task `wTaskBadDone` adds nothing to day
bucket 95, and the invalid-`dueDate` task `wTaskBadDue` is `Upcoming`, not overdue. -/
theorem malformed_failsafe_witness :
    (dayLookup 95 (contributions 0 ([wTaskDone] ++ wTaskBadDone :: [wTask])) =
       dayLookup 95 (contributions 0 ([wTaskDone] ++ [wTask]))) ∧
    classify 0 wTaskBadDue wNow = .Upcoming ∧
    adminOverdue 0 wNow wTaskBadDue = false :=
  ⟨(malformed_failsafe 0 wNow wTaskBadDone [wTaskDone] [wTask] 95).1 rfl,
   (malformed_failsafe 0 wNow wTaskBadDue [] [] 0).2.1 rfl rfl,
   (malformed_failsafe 0 wNow wTaskBadDue [] [] 0).2.2 rfl⟩

/-- C5: consistency color scale.  `getColor` realizes exactly the 5-level bucketing
`0 → 0, 1 → 1, 2-3 → 2, 4-5 → 3, ≥6 → 4` into the palette of level classes, and the
counts 0,1,2,3,4,5,6,10 land on levels 0,1,2,2,3,3,4,4. -/
theorem getColor_levels :
    (∀ c : Nat, getColor c = levelPalette.getD (colorLevelSpec c) "") ∧
    [0, 1, 2, 3, 4, 5, 6, 10].map colorLevelSpec = [0, 1, 2, 2, 3, 3, 4, 4] := by
  refine ⟨fun c => ?_, by decide⟩
  rcases Nat.lt_or_ge c 6 with h | h
  · interval_cases c <;> rfl
  · have h0 : ¬ c = 0 := by omega
    have h1 : ¬ c = 1 := by omega
    have h3 : ¬ c ≤ 3 := by omega
    have h5 : ¬ c ≤ 5 := by omega
    simp [getColor, colorLevelSpec, levelPalette, h0, h1, h3, h5]

/-- Bumping key `k'` raises the lookup at `k` by one exactly when `k = k'`. -/
theorem dayLookup_bumpDay (k k' : Int) (m : List (Int × Nat)) :
    dayLookup k (bumpDay k' m) =
      if k = k' then dayLookup k m + 1 else dayLookup k m := by
  induction m with
  | nil =>
    by_cases h : k = k' <;> simp [bumpDay, dayLookup, h]
  | cons kv rest ih =>
    obtain ⟨k₀, n⟩ := kv
    by_cases h' : k' = k₀
    · subst h'
      by_cases h : k = k' <;> simp [bumpDay, dayLookup, h]
    · have h'' : ¬ k₀ = k' := fun hh => h' hh.symm
      by_cases h : k = k₀ <;> simp [bumpDay, dayLookup, h', h, h'', ih]

/-- The predicate of the line chart's per-day re-scan. -/
def naivePred (off : Int) (day : Int) (t : Task) : Bool :=
  t.completed && jsTruthyNum t.completedAt &&
    (match t.completedAt with
     | none => false
     | some v => localDay off v == day)

/-- One contribution step raises the lookup at `day` by one exactly when the task
passes the re-scan predicate for `day`. -/
theorem dayLookup_contribStep (off day : Int) (m : List (Int × Nat)) (t : Task) :
    dayLookup day (contribStep off m t) =
      dayLookup day m + (if naivePred off day t then 1 else 0) := by
  cases hca : t.completedAt with
  | none => simp [contribStep, naivePred, hca, jsTruthyNum]
  | some v =>
    by_cases hc : (t.completed && v != 0) = true
    · simp only [contribStep, hca]
      rw [if_pos hc, dayLookup_bumpDay]
      by_cases hday : day = localDay off v
      · simp [naivePred, hca, jsTruthyNum, hc, hday]
      · have hd : (localDay off v == day) = false := by
          rw [beq_eq_false_iff_ne]
          exact fun hh => hday hh.symm
        simp [naivePred, hca, jsTruthyNum, hd, hday]
    · have hcf : (t.completed && (v != 0)) = false := by
        cases hcc : (t.completed && (v != 0)) with
        | false => rfl
        | true => exact absurd hcc hc
      have hp : naivePred off day t = false := by
        simp only [naivePred, hca, jsTruthyNum, hcf, Bool.false_and]
      simp only [contribStep, hca]
      rw [if_neg hc, hp]
      simp

/-- Folding the contribution pass from any accumulator adds the naive count. -/
theorem dayLookup_foldl (off day : Int) (tasks : List Task) (m : List (Int × Nat)) :
    dayLookup day (tasks.foldl (contribStep off) m) =
      dayLookup day m + (tasks.filter (naivePred off day)).length := by
  induction tasks generalizing m with
  | nil => simp
  | cons t ts ih =>
    rw [List.foldl_cons, ih, dayLookup_contribStep, List.filter_cons]
    by_cases h : naivePred off day t <;> simp [h] <;> omega

/-- C6: the single-pass day-key map agrees with the line chart's naive per-day
filter-and-count re-scan, for every task list and every calendar day. -/
theorem contributions_eq_naive (off : Int) (tasks : List Task) (day : Int) :
    dayLookup day (contributions off tasks) = naiveDayCount off tasks day := by
  rw [contributions, dayLookup_foldl]
  simp only [dayLookup, Nat.zero_add]
  rfl

/-- The history comparator's "not after" relation is transitive. -/
theorem historyLe_trans (a b c : Task) (hab : historyCmp a b ≤ 0)
    (hbc : historyCmp b c ≤ 0) : historyCmp a c ≤ 0 := by
  unfold historyCmp at hab hbc ⊢
  cases ha : a.completed <;> cases hb : b.completed <;> cases hc : c.completed <;>
    simp_all <;> omega

/-- The history comparator's "not after" relation is total. -/
theorem historyLe_total (a b : Task) : historyCmp a b ≤ 0 ∨ historyCmp b a ≤ 0 := by
  unfold historyCmp
  cases ha : a.completed <;> cases hb : b.completed <;> simp_all <;> omega

/-- "Not after" under the comparator entails the claimed display order. -/
theorem historyLe_imp (a b : Task) (h : historyCmp a b ≤ 0) : historyOrdered a b := by
  unfold historyCmp at h
  unfold historyOrdered
  cases ha : a.completed <;> cases hb : b.completed <;> simp_all <;> omega

/-- C7: per-student history ordering.  In the history view's sorted list, every pair
in display order satisfies: an incomplete task precedes a complete one, two incomplete
tasks are in ascending due-date order, and two complete tasks are in descending
completion-time order. -/
theorem history_view_ordering (uid : String) (allTasks : List Task) :
    (selectedStudentTasks uid allTasks).Pairwise historyOrdered := by
  unfold selectedStudentTasks
  refine List.Pairwise.imp ?_
    (List.sorted_mergeSort ?_ ?_ (allTasks.filter (fun t => t.userId == uid)))
  · intro a b h
    exact historyLe_imp a b (by simpa using h)
  · intro a b c hab hbc
    simpa using historyLe_trans a b c (by simpa using hab) (by simpa using hbc)
  · intro a b
    rcases historyLe_total a b with h | h <;> simp [h]

/-- C8: CSV rollup row values.  For the fixed student with ten tasks — seven
completed, one overdue (due day 99 against now on day 100), two pending and not
overdue — the exported row reads total 10, completed 7, pending 3, overdue 1,
completion rate 70. -/
theorem csv_row_sample : csvRowStats 0 wNow "s1" sampleTasks =
    { total := 10, completed := 7, pending := 3, overdue := 1, rate := 70 } := by
  decide

/-- `Math.round(100 * c / t)` computed by natural division agrees with exact rational
rounding whenever `t > 0`. -/
theorem jsRound100_eq (c t : Nat) (ht : 0 < t) : jsRound100 c t = rateSpec c t := by
  have ht' : t ≠ 0 := Nat.pos_iff_ne_zero.1 ht
  unfold rateSpec jsRound100
  rw [if_neg ht', round_eq]
  have hq : (100 * c : ℚ) / t + 1 / 2 = ((200 * c + t : ℕ) : ℚ) / ((2 * t : ℕ) : ℚ) := by
    have htq : (t : ℚ) ≠ 0 := by exact_mod_cast ht'
    push_cast
    field_simp
    ring
  rw [hq, Int.floor_toNat, Nat.floor_div_eq_div]

/-- C9: completion rate.  For every task list the computed rate is the rounded
percentage `round(100 * completedCount / totalCount)` (with the 0-for-empty
convention), and the empty list yields exactly 0 rather than a division error. -/
theorem completion_rate_spec :
    (∀ tasks : List Task, completionRate tasks =
       rateSpec ((tasks.filter (fun t => t.completed)).length) tasks.length) ∧
    completionRate [] = 0 := by
  refine ⟨fun tasks => ?_, rfl⟩
  rcases Nat.eq_zero_or_pos tasks.length with h | h
  · simp [completionRate, h, rateSpec, List.length_eq_zero.1 h]
  · simp only [completionRate, h, if_pos]
    exact jsRound100_eq _ _ h

/-- Tasks passing a predicate that entails "not completed" are at most the
not-completed tasks (total minus completed). -/
theorem filter_length_sub (l : List Task) (p : Task → Bool)
    (hp : ∀ t, p t = true → t.completed = false) :
    (l.filter p).length ≤ l.length - (l.filter (fun t => t.completed)).length := by
  induction l with
  | nil => simp
  | cons t ts ih =>
    have hle := List.length_filter_le (fun x : Task => x.completed) ts
    by_cases hc : t.completed = true
    · have hpt : p t = false := by
        cases hpt : p t with
        | false => rfl
        | true => exact absurd (hp t hpt) (by simp [hc])
      simp only [List.filter_cons, hc, hpt, if_true, if_false, Bool.false_eq_true,
        List.length_cons]
      omega
    · have hcf : t.completed = false := Bool.eq_false_iff.2 hc
      have hd : (if p t = true then t :: List.filter p ts else List.filter p ts).length ≤
          (List.filter p ts).length + 1 := by
        by_cases hpt : p t = true <;> simp [hpt]
      simp only [List.filter_cons, hcf, Bool.false_eq_true, if_false, List.length_cons]
      omega

/-- C10: rollup invariant.  In the CSV row of any student and in the system-wide
rollup, `pending` is `total - completed`, so `completed + pending = total`, and every
overdue task is also pending (`overdue ≤ pending`): the categories overlap. -/
theorem rollup_invariant (off now : Int) (uid : String) (allTasks : List Task) :
    ((csvRowStats off now uid allTasks).completed + (csvRowStats off now uid allTasks).pending
        = (csvRowStats off now uid allTasks).total) ∧
    ((csvRowStats off now uid allTasks).overdue ≤ (csvRowStats off now uid allTasks).pending) ∧
    ((systemStats off now allTasks).completed + (systemStats off now allTasks).pending
        = (systemStats off now allTasks).total) ∧
    ((systemStats off now allTasks).overdue ≤ (systemStats off now allTasks).pending) := by
  have hadmin : ∀ t : Task, adminOverdue off now t = true → t.completed = false := by
    intro t h
    unfold adminOverdue at h
    cases hc : t.completed <;> simp_all
  refine ⟨?_, ?_, ?_, ?_⟩ <;> simp only [csvRowStats, systemStats]
  · have := List.length_filter_le (fun t : Task => t.completed)
      (allTasks.filter (fun t => t.userId == uid))
    omega
  · exact filter_length_sub _ _ hadmin
  · have := List.length_filter_le (fun t : Task => t.completed) allTasks
    omega
  · exact filter_length_sub _ _ hadmin

end StudyTracker
